import Mathlib

/-!
Verification of the lightspeed operator (platform/operator) against its
natural-language specification.  Go strings are modelled as `List Char`;
stateful handlers are modelled as pure functions over explicit state and
explicit oracles for the results of outbound HTTP calls.  All definitions
are translated from the Go source in `platform/operator`, except where a
doc comment says "Modelled from the spec" (code not present in the tree).
-/

namespace Lightspeed

/-- Models Go `strings.TrimPrefix s pre`: drops `pre` from the front of `s`
when it is a prefix, otherwise returns `s` unchanged. -/
def goTrimPre (s pre : List Char) : List Char :=
  if pre <+: s then s.drop pre.length else s

/-- Models Go `strings.SplitN(s, sep, 2)[0]`: the part of `s` before the
first occurrence of the separator character (all of `s` if absent). -/
def beforeSep (sep : Char) : List Char → List Char
  | [] => []
  | c :: cs => if c = sep then [] else c :: beforeSep sep cs

/-- Models the path rewrite in `RegistryProxy.ServeHTTP`
(`cloudflare.go:1224-1231`): when a registry namespace is configured and the
path starts with `/v2/`, the namespace is inserted after `/v2/` unless the
remainder already starts with `namespace ++ "/"`. -/
def rewritePath (registryName path : List Char) : List Char :=
  if registryName ≠ [] ∧ "/v2/".toList <+: path then
    let rest := goTrimPre path "/v2/".toList
    if rest ≠ [] ∧ ¬ ((registryName ++ "/".toList) <+: rest) then
      "/v2/".toList ++ registryName ++ "/".toList ++ rest
    else path
  else path

/-- Models `RegistryProxy.extractRepoFromPath` (`cloudflare.go:1125-1148`):
extracts `registryName/<first segment>` from a `/v2/...` path, tolerating a
path that already carries the namespace. -/
def extractRepoFromPath (registryName path : List Char) : List Char :=
  if ¬ ("/v2/".toList <+: path) then []
  else
    let rest := goTrimPre path "/v2/".toList
    if (registryName ++ "/".toList) <+: rest then
      let afterRegistry := goTrimPre rest (registryName ++ "/".toList)
      let seg := beforeSep '/' afterRegistry
      if seg = [] then []
      else registryName ++ "/".toList ++ seg
    else
      let seg := beforeSep '/' rest
      if seg = [] then []
      else registryName ++ "/".toList ++ seg

/-- An inbound client request, reduced to the fields the proxy logic
inspects: the URL path and the declared `ContentLength` (Go `int64`;
`-1` means unknown/chunked, `0` means empty or unset, `> 0` a declared
body size). -/
structure ProxyRequest where
  path : List Char
  contentLength : Int
deriving DecidableEq

/-- The upstream request built by `ServeHTTP`: the rewritten path and the
declared `ContentLength` of the outbound request. -/
structure UpstreamReq where
  path : List Char
  contentLength : Int
deriving DecidableEq

/-- The observable outcome of one `RegistryProxy.ServeHTTP` call: status
written to the client, how many times the upstream registry was called,
how many repo-token fetches were made, and the forwarded request (when the
upstream call was issued). -/
structure ServeOutcome where
  status : Nat
  upstreamCalls : Nat
  tokenFetches : Nat
  forwarded : Option UpstreamReq
deriving DecidableEq

/-- Models the declared `ContentLength` of the outbound request built by
`ServeHTTP`: it starts at `0` (`http.NewRequestWithContext` with an opaque
body reader), and both `cloudflare.go:1245-1247` and `copyRequestHeaders`
(`cloudflare.go:1386-1389`) assign the inbound value exactly when it is
positive, so the net effect is this single positive-guarded assignment. -/
def upstreamContentLength (cl : Int) : Int :=
  if cl > 0 then cl else 0

/-- Models `RegistryProxy.ServeHTTP` (`cloudflare.go:1205-1356`).
`tokenRes` is the result of `getTokenForRepo`, `doRes` the result of the
single `registryClient.Do` call (transport error or upstream status). -/
def serveHTTP (registryName authToken : List Char)
    (tokenRes : Except Unit (List Char)) (doRes : Except Unit Nat)
    (r : ProxyRequest) : ServeOutcome :=
  if r.path = "/v2/".toList ∨ r.path = "/v2".toList then
    ⟨200, 0, 0, none⟩
  else if authToken ≠ [] ∧ extractRepoFromPath registryName r.path ≠ [] then
    match tokenRes with
    | .error _ => ⟨502, 0, 1, none⟩
    | .ok _ =>
      match doRes with
      | .error _ =>
        ⟨502, 1, 1, some ⟨rewritePath registryName r.path,
          upstreamContentLength r.contentLength⟩⟩
      | .ok st =>
        ⟨st, 1, 1, some ⟨rewritePath registryName r.path,
          upstreamContentLength r.contentLength⟩⟩
  else
    match doRes with
    | .error _ =>
      ⟨502, 1, 0, some ⟨rewritePath registryName r.path,
        upstreamContentLength r.contentLength⟩⟩
    | .ok st =>
      ⟨st, 1, 0, some ⟨rewritePath registryName r.path,
        upstreamContentLength r.contentLength⟩⟩

/-! ## Credential cache (`RegistryProxy.getDockerCreds`, `cloudflare.go:968-994`) -/

/-- The shared mutable credential state of `RegistryProxy`: the cached
base64 secret (`""` when absent) and its expiry timestamp.  Time is
modelled in seconds. -/
structure ProxyCredState where
  dockerCreds : List Char
  credsExpiry : Nat
deriving DecidableEq

deriving instance DecidableEq for Except

/-- The observable result of one `getDockerCreds` call: the state after
the call, the returned value or error, and whether `fetchDockerCreds`
was invoked. -/
structure CredsOutcome where
  state : ProxyCredState
  result : Except Unit (List Char)
  fetched : Bool
deriving DecidableEq

/-- The fixed credential TTL (`cloudflare.go:990`): 30 minutes, in
seconds. -/
def credTTL : Nat := 30 * 60

/-- Models `RegistryProxy.getDockerCreds` (`cloudflare.go:968-994`),
sequentially: the read-locked check and the re-check under the write lock
collapse to one check against the same `now`; `fetchRes` is the result of
the `fetchDockerCreds` upstream call. -/
def getDockerCreds (now : Nat) (fetchRes : Except Unit (List Char))
    (s : ProxyCredState) : CredsOutcome :=
  if s.dockerCreds ≠ [] ∧ now < s.credsExpiry then
    ⟨s, .ok s.dockerCreds, false⟩
  else
    match fetchRes with
    | .error e => ⟨s, .error e, true⟩
    | .ok creds => ⟨⟨creds, now + credTTL⟩, .ok creds, true⟩

/-! ## DNS reconciler (`CloudflareClient.EnsureCNAME`, `cloudflare.go:150-232`) -/

/-- The managed zone's records, modelled as an association list from
fully-qualified CNAME name to record content (one record per name, as
`findDNSRecord` queries by exact name and uses the first result). -/
abbrev DNSWorld := List (List Char × List Char)

/-- Models `findDNSRecord` (`cloudflare.go:102-147`) against the zone
state: the content of the first record whose name matches exactly. -/
def findRec : DNSWorld → List Char → Option (List Char)
  | [], _ => none
  | (k, v) :: w, name => if k = name then some v else findRec w name

/-- The effect on the zone of the create (`POST`) or update (`PUT`) call
issued by `EnsureCNAME`: the record under `name` now has `content`. -/
def setRec : DNSWorld → List Char → List Char → DNSWorld
  | [], name, content => [(name, content)]
  | (k, v) :: w, name, content =>
    if k = name then (k, content) :: w else (k, v) :: setRec w name content

/-- Models the full-name computation at the top of `EnsureCNAME`
(`cloudflare.go:152-155`): append the fixed zone suffix
`".lightspeed.ee"` unless the subdomain already ends with it. -/
def fullName (subdomain : List Char) : List Char :=
  if ".lightspeed.ee".toList <:+ subdomain then subdomain
  else subdomain ++ ".lightspeed.ee".toList

/-- Models the scheme stripping in `EnsureCNAME` (`cloudflare.go:157-159`):
`strings.TrimPrefix` of `"https://"` then of `"http://"`. -/
def stripScheme (target : List Char) : List Char :=
  goTrimPre (goTrimPre target "https://".toList) "http://".toList

/-- The network call (beyond the lookups) issued by one `EnsureCNAME`
call. -/
inductive DNSCall where
  | createRec (name content : List Char)
  | updateRec (name content : List Char)
  | noCall
deriving DecidableEq

/-- The observable outcome of one `EnsureCNAME` call: the create/update
call issued, and the zone state afterwards. -/
structure EnsureOutcome where
  call : DNSCall
  world : DNSWorld
deriving DecidableEq

/-- Models `CloudflareClient.EnsureCNAME` (`cloudflare.go:150-232`) against
the zone state: compute the full name and the stripped target, look up the
record by exact name; create when absent, update when present with
different content, and do nothing when the content already matches. -/
def ensureCNAME (w : DNSWorld) (subdomain target : List Char) : EnsureOutcome :=
  match findRec w (fullName subdomain) with
  | some content =>
    if content = stripScheme target then ⟨.noCall, w⟩
    else ⟨.updateRec (fullName subdomain) (stripScheme target),
      setRec w (fullName subdomain) (stripScheme target)⟩
  | none => ⟨.createRec (fullName subdomain) (stripScheme target),
      setRec w (fullName subdomain) (stripScheme target)⟩

/-! ## Sites orchestrator (`SitesHandler`, `cloudflare.go:367-926`) -/

/-- Retry bound of `SitesHandler.waitForTag` (`cloudflare.go:906`). -/
def maxRetries : Nat := 5

/-- Fixed delay between attempts in `waitForTag` (`cloudflare.go:907`),
in seconds. -/
def retryDelaySeconds : Nat := 2

/-- Models `SitesHandler.tagExists` (`cloudflare.go:870-902`).  The
registry tag-listing response is a transport error or a pair of HTTP
status and decoded tag names: on a transport error the error is returned;
on any non-200 status the result is `(false, nil)`; on 200 the tag is
looked up in the listing. -/
def tagExists (resp : Except Unit (Nat × List (List Char))) (tag : List Char) :
    Except Unit Bool :=
  match resp with
  | .error e => .error e
  | .ok (status, tags) =>
    if status ≠ 200 then .ok false
    else .ok (decide (tag ∈ tags))

/-- The retry loop of `waitForTag` (`cloudflare.go:909-923`): attempts are
numbered from `attempt` and `fuel` attempts remain; `responses i` is the
tag-listing response seen by attempt `i`.  Returns whether the tag was
seen and how many `tagExists` calls were made.  An error result and an
`ok false` result both consume the attempt and continue. -/
def waitLoop (responses : Nat → Except Unit (Nat × List (List Char)))
    (tag : List Char) : Nat → Nat → Bool × Nat
  | _, 0 => (false, 0)
  | attempt, fuel + 1 =>
    match tagExists (responses attempt) tag with
    | .ok true => (true, 1)
    | _ =>
      let r := waitLoop responses tag (attempt + 1) fuel
      (r.1, r.2 + 1)

/-- Models `SitesHandler.waitForTag` (`cloudflare.go:905-926`): up to
`maxRetries` attempts starting at attempt 1. -/
def waitForTag (responses : Nat → Except Unit (Nat × List (List Char)))
    (tag : List Char) : Bool × Nat :=
  waitLoop responses tag 1 maxRetries

/-- The JSON body of a `POST /sites` request, after decoding
(`cloudflare.go:387-392`): the fields `createSite` inspects.  Empty lists
model Go's zero-value strings. -/
structure SiteReq where
  name : List Char
  image : List Char
  tag : List Char
deriving DecidableEq

/-- The observable outcome of a `createSite` call: the response status,
whether the platform application-creation call (`POST /apps`) was issued,
the defaulted image and tag, and the number of tag-listing polls made. -/
structure CreateOutcome where
  status : Nat
  createCalled : Bool
  image : List Char
  tag : List Char
  polls : Nat
deriving DecidableEq

/-- The image default in `createSite` (`cloudflare.go:520-523`): the site
name when absent. -/
def defaultedImage (site : SiteReq) : List Char :=
  if site.image = [] then site.name else site.image

/-- The tag default in `createSite` (`cloudflare.go:524-527`): `"latest"`
when absent. -/
def defaultedTag (site : SiteReq) : List Char :=
  if site.tag = [] then "latest".toList else site.tag

/-- Models `SitesHandler.createSite` (`cloudflare.go:506-648`):
empty name fails with 400; otherwise the image/tag defaults are applied,
`waitForTag` polls the registry listing, a failed wait responds 404
without creating, and a successful wait issues the `POST /apps` call
(`createRes`: transport error gives 502, non-200/201 status is forwarded,
otherwise 201). -/
def createSite (responses : Nat → Except Unit (Nat × List (List Char)))
    (createRes : Except Unit Nat) (site : SiteReq) : CreateOutcome :=
  if site.name = [] then ⟨400, false, [], [], 0⟩
  else
    match waitForTag responses (defaultedTag site) with
    | (false, n) => ⟨404, false, defaultedImage site, defaultedTag site, n⟩
    | (true, n) =>
      match createRes with
      | .error _ => ⟨502, true, defaultedImage site, defaultedTag site, n⟩
      | .ok st =>
        if st ≠ 200 ∧ st ≠ 201 then
          ⟨st, true, defaultedImage site, defaultedTag site, n⟩
        else ⟨201, true, defaultedImage site, defaultedTag site, n⟩

/-- One entry of the platform's `GET /apps` listing, reduced to the fields
`findAppByName` inspects (`cloudflare.go:803-810`). -/
structure AppInfo where
  id : List Char
  name : List Char
deriving DecidableEq

/-- Models `SitesHandler.findAppByName` (`cloudflare.go:791-823`): the
listing response is a transport error or a pair of status and decoded
apps; a non-200 status is an error; otherwise the id of the first app
whose spec name equals the requested name is returned, and `[]` (Go `""`)
when none matches. -/
def findAppByName (listResp : Except Unit (Nat × List AppInfo))
    (name : List Char) : Except Unit (List Char) :=
  match listResp with
  | .error e => .error e
  | .ok (status, apps) =>
    if status ≠ 200 then .error ()
    else
      match apps.find? (fun a => decide (a.name = name)) with
      | some a => .ok a.id
      | none => .ok []

/-- The observable outcome of one `getSite`/`deleteSite`/`deploySite`
call: the response status and whether the follow-up platform call (get,
delete or deployment request) was issued. -/
structure HandlerOutcome where
  status : Nat
  secondCall : Bool
deriving DecidableEq

/-- Models `SitesHandler.getSite` (`cloudflare.go:651-713`): resolve the
name; a resolution error gives 502, an empty id gives 404 with no further
call, else the `GET /apps/{id}` call (`appResp`) is issued. -/
def getSite (listResp : Except Unit (Nat × List AppInfo))
    (appResp : Except Unit Nat) (name : List Char) : HandlerOutcome :=
  match findAppByName listResp name with
  | .error _ => ⟨502, false⟩
  | .ok appID =>
    if appID = [] then ⟨404, false⟩
    else
      match appResp with
      | .error _ => ⟨502, true⟩
      | .ok st => if st ≠ 200 then ⟨st, true⟩ else ⟨200, true⟩

/-- Models `SitesHandler.deleteSite` (`cloudflare.go:716-740`): like
`getSite` but issuing `DELETE /apps/{id}` and answering 204. -/
def deleteSite (listResp : Except Unit (Nat × List AppInfo))
    (delResp : Except Unit Nat) (name : List Char) : HandlerOutcome :=
  match findAppByName listResp name with
  | .error _ => ⟨502, false⟩
  | .ok appID =>
    if appID = [] then ⟨404, false⟩
    else
      match delResp with
      | .error _ => ⟨502, true⟩
      | .ok st => if st ≠ 200 ∧ st ≠ 204 then ⟨st, true⟩ else ⟨204, true⟩

/-- Models `SitesHandler.deploySite` (`cloudflare.go:743-788`): like
`getSite` but issuing `POST /apps/{id}/deployments` and answering 201. -/
def deploySite (listResp : Except Unit (Nat × List AppInfo))
    (depResp : Except Unit Nat) (name : List Char) : HandlerOutcome :=
  match findAppByName listResp name with
  | .error _ => ⟨502, false⟩
  | .ok appID =>
    if appID = [] then ⟨404, false⟩
    else
      match depResp with
      | .error _ => ⟨502, true⟩
      | .ok st => if st ≠ 200 ∧ st ≠ 201 then ⟨st, true⟩ else ⟨201, true⟩

/-! ## Retention pruner (package `registry`: `Pruner.pruneRepository`) -/

/-- A registry tag as the pruner sees it: `TagInfo` {Tag, UpdatedAt},
with update time in seconds. -/
structure TagInfo where
  tag : List Char
  updatedAt : Nat
deriving DecidableEq

/-- A parsed semantic version with the original tag string: `SemVer`
{Major, Minor, Patch, Raw}. -/
structure SemVer where
  major : Nat
  minor : Nat
  patch : Nat
  raw : List Char
deriving DecidableEq

/-- The number of semver versions to keep: `NewPruner` fixes
`keepVersions` at 3. -/
def keepVersions : Nat := 3

/-- `NewPruner` fixes `keepLatest` at `true`. -/
def keepLatest : Bool := true

/-- The numeric value of a list of decimal digit characters
(`strconv.Atoi` on an all-digit regex capture group). -/
def digitsToNat (s : List Char) : Nat :=
  s.foldl (fun n c => n * 10 + (c.toNat - '0'.toNat)) 0

/-- A nonempty all-digit group parsed as a number, `none` otherwise. -/
def parseNatStrict (s : List Char) : Option Nat :=
  if s ≠ [] ∧ s.all Char.isDigit then some (digitsToNat s) else none

/-- Splits a character list on a separator (all occurrences). -/
def splitOnCh (sep : Char) : List Char → List (List Char)
  | [] => [[]]
  | c :: cs =>
    if c = sep then [] :: splitOnCh sep cs
    else
      match splitOnCh sep cs with
      | [] => [[c]]
      | h :: t => (c :: h) :: t

/-- Models the anchored semver regex of `pruneRepository`,
`^v?(\d+)\.(\d+)\.(\d+)$`, with `strconv.Atoi` on the three capture
groups: an optional leading `v`, then exactly three dot-separated
nonempty digit groups. -/
def parseSemVer (s : List Char) : Option (Nat × Nat × Nat) :=
  match splitOnCh '.' (match s with | 'v' :: rest => rest | _ => s) with
  | [a, b, c] =>
    match parseNatStrict a, parseNatStrict b, parseNatStrict c with
    | some x, some y, some z => some (x, y, z)
    | _, _, _ => none
  | _ => none

/-- Whether the tag list contains the literal `latest`; `pruneRepository`
uses only its name (`keepTags[latestTag.Tag]`), which is `latest`
itself. -/
def hasLatest (tags : List TagInfo) : Bool :=
  tags.any (fun t => decide (t.tag = "latest".toList))

/-- The `versionTags` category of `pruneRepository`'s classification
loop: tags other than `latest` that match the semver regex, in listing
order, each with its original string in `raw`. -/
def versionTags (tags : List TagInfo) : List SemVer :=
  tags.filterMap (fun t =>
    if t.tag = "latest".toList then none
    else (parseSemVer t.tag).map (fun v => ⟨v.1, v.2.1, v.2.2, t.tag⟩))

/-- The `otherTags` category: neither `latest` nor matching the semver
regex. -/
def otherTags (tags : List TagInfo) : List TagInfo :=
  tags.filter (fun t =>
    decide (t.tag ≠ "latest".toList ∧ parseSemVer t.tag = none))

/-- Insertion step of an insertion sort with a Boolean comes-before
relation. -/
def insertBy {α : Type} (le : α → α → Bool) (a : α) : List α → List α
  | [] => [a]
  | b :: bs => if le a b then a :: b :: bs else b :: insertBy le a bs

/-- Models the two `sort.Slice` calls of `pruneRepository` as an
insertion sort with the same comes-before comparison (the order of
elements the comparator ties is unspecified in Go and irrelevant to the
properties proved here). -/
def sortBy {α : Type} (le : α → α → Bool) : List α → List α
  | [] => []
  | a :: as => insertBy le a (sortBy le as)

/-- The semver comparator of `pruneRepository`'s first `sort.Slice`:
descending by major, then minor, then patch. -/
def semverLess (a b : SemVer) : Bool :=
  if a.major ≠ b.major then decide (b.major < a.major)
  else if a.minor ≠ b.minor then decide (b.minor < a.minor)
  else decide (b.patch < a.patch)

/-- The non-semver comparator of the second `sort.Slice`:
`UpdatedAt.After`, most recent first. -/
def afterTime (a b : TagInfo) : Bool :=
  decide (b.updatedAt < a.updatedAt)

/-- Models the `keepTags` set built by `pruneRepository`: `latest` when
present (and `keepLatest` is set), the top `n` semver versions, and —
only when no semver versions exist — the top `n` non-semver tags by
date. -/
def keepTags (n : Nat) (tags : List TagInfo) : List (List Char) :=
  (if hasLatest tags = true ∧ keepLatest = true then ["latest".toList] else []) ++
  ((sortBy semverLess (versionTags tags)).take n).map SemVer.raw ++
  (if versionTags tags = [] then
    ((sortBy afterTime (otherTags tags)).take n).map TagInfo.tag
  else [])

/-- Models the `tagsToDelete` list built by `pruneRepository`: semver
versions beyond the keep limit, and — only when no semver versions exist
— non-semver tags beyond the keep limit.  Nothing else is ever deleted:
not `latest`, and not non-semver tags while semver versions exist. -/
def tagsToDelete (n : Nat) (tags : List TagInfo) : List (List Char) :=
  ((sortBy semverLess (versionTags tags)).drop n).map SemVer.raw ++
  (if versionTags tags = [] then
    ((sortBy afterTime (otherTags tags)).drop n).map TagInfo.tag
  else [])

theorem goTrimPre_append (pre t : List Char) : goTrimPre (pre ++ t) pre = t := by
  simp [goTrimPre, List.prefix_append, List.drop_left]

theorem upstreamContentLength_of_nonneg {cl : Int} (h : 0 ≤ cl) :
    upstreamContentLength cl = cl := by
  unfold upstreamContentLength
  rcases eq_or_lt_of_le h with h | h
  · simp [← h]
  · simp [h]

theorem serveHTTP_forwarded (registryName authToken : List Char)
    (tokenRes : Except Unit (List Char)) (doRes : Except Unit Nat)
    (r : ProxyRequest) (u : UpstreamReq)
    (hu : (serveHTTP registryName authToken tokenRes doRes r).forwarded = some u) :
    u = ⟨rewritePath registryName r.path, upstreamContentLength r.contentLength⟩ := by
  unfold serveHTTP at hu
  by_cases h0 : r.path = "/v2/".toList ∨ r.path = "/v2".toList
  · rw [if_pos h0] at hu
    simp at hu
  · rw [if_neg h0] at hu
    by_cases h1 : authToken ≠ [] ∧ extractRepoFromPath registryName r.path ≠ []
    · rw [if_pos h1] at hu
      cases tokenRes with
      | error e => simp at hu
      | ok tok =>
        cases doRes with
        | error e =>
          simp only [Option.some.injEq] at hu
          exact hu.symm
        | ok st =>
          simp only [Option.some.injEq] at hu
          exact hu.symm
    · rw [if_neg h1] at hu
      cases doRes with
      | error e =>
        simp only [Option.some.injEq] at hu
        exact hu.symm
      | ok st =>
        simp only [Option.some.injEq] at hu
        exact hu.symm

/-- C1: for every request proxied by the registry proxy (any path other
than the protocol root) that declares a body size of `S` bytes
(`S ≥ 0`), the request the proxy forwards to the upstream registry also
declares exactly `S` bytes as its body size. -/
theorem proxy_preserves_content_length
    (registryName authToken : List Char) (tokenRes : Except Unit (List Char))
    (doRes : Except Unit Nat) (r : ProxyRequest) (S : Int)
    (hS : 0 ≤ S) (hcl : r.contentLength = S) (u : UpstreamReq)
    (hu : (serveHTTP registryName authToken tokenRes doRes r).forwarded = some u) :
    u.contentLength = S := by
  have h := serveHTTP_forwarded registryName authToken tokenRes doRes r u hu
  rw [h]
  show upstreamContentLength r.contentLength = S
  rw [hcl, upstreamContentLength_of_nonneg hS]

/-- Closed witness for `proxy_preserves_content_length` at a concrete
request of declared size 5. -/
theorem proxy_preserves_content_length_witness :
    (0 : Int) ≤ 5 ∧
    (⟨"/v2/x".toList, 5⟩ : ProxyRequest).contentLength = 5 ∧
    (serveHTTP [] [] (Except.ok []) (Except.ok 200)
        ⟨"/v2/x".toList, 5⟩).forwarded = some ⟨"/v2/x".toList, 5⟩ ∧
    (⟨"/v2/x".toList, (5 : Int)⟩ : UpstreamReq).contentLength = 5 :=
  ⟨by norm_num, rfl, by decide,
    proxy_preserves_content_length [] [] (Except.ok []) (Except.ok 200)
      ⟨"/v2/x".toList, 5⟩ 5 (by norm_num) rfl ⟨"/v2/x".toList, 5⟩ (by decide)⟩

theorem rewritePath_of_not (rn p : List Char)
    (h : ¬ (rn ≠ [] ∧ "/v2/".toList <+: p)) : rewritePath rn p = p := by
  unfold rewritePath
  rw [if_neg h]

theorem rewritePath_already (rn u : List Char)
    (h : (rn ++ "/".toList) <+: u) :
    rewritePath rn ("/v2/".toList ++ u) = "/v2/".toList ++ u := by
  by_cases h1 : rn ≠ [] ∧ "/v2/".toList <+: "/v2/".toList ++ u
  · have h' : rn ++ ['/'] <+: u := by simpa using h
    unfold rewritePath
    rw [if_pos h1, goTrimPre_append, if_neg (by simp [h'])]
  · exact rewritePath_of_not rn _ h1

theorem rewritePath_idem (rn p : List Char) :
    rewritePath rn (rewritePath rn p) = rewritePath rn p := by
  by_cases h1 : rn ≠ [] ∧ "/v2/".toList <+: p
  · obtain ⟨t, rfl⟩ := h1.2
    by_cases h2 : t ≠ [] ∧ ¬ ((rn ++ "/".toList) <+: t)
    · have e1 : rewritePath rn ("/v2/".toList ++ t)
          = "/v2/".toList ++ (rn ++ ("/".toList ++ t)) := by
        unfold rewritePath
        rw [if_pos h1, goTrimPre_append, if_pos h2]
        simp [List.append_assoc]
      rw [e1, rewritePath_already]
      rw [← List.append_assoc]
      exact List.prefix_append _ _
    · have e1 : rewritePath rn ("/v2/".toList ++ t) = "/v2/".toList ++ t := by
        unfold rewritePath
        rw [if_pos h1, goTrimPre_append, if_neg h2]
      rw [e1, e1]
  · rw [rewritePath_of_not rn p h1, rewritePath_of_not rn p h1]

/-- C2: the registry proxy's path rewrite inserts the configured namespace
immediately after `/v2/` unless already present, and is idempotent:
`/v2/myimage/manifests/latest` under namespace `ns` becomes
`/v2/ns/myimage/manifests/latest`, rewriting that again is the identity,
and in general `rewritePath rn (rewritePath rn p) = rewritePath rn p`. -/
theorem proxy_path_rewrite_idempotent :
    rewritePath "ns".toList "/v2/myimage/manifests/latest".toList
        = "/v2/ns/myimage/manifests/latest".toList
    ∧ rewritePath "ns".toList "/v2/ns/myimage/manifests/latest".toList
        = "/v2/ns/myimage/manifests/latest".toList
    ∧ ∀ rn p, rewritePath rn (rewritePath rn p) = rewritePath rn p :=
  ⟨by decide, by decide, rewritePath_idem⟩

/-- C8: when the registry proxy cannot obtain a repository-scoped bearer
token, it responds 502 and never calls upstream; when the upstream
transport call fails, it responds 502 having attempted the upstream call
exactly once (no inline retry). -/
theorem proxy_failure_502_spec
    (registryName authToken : List Char) (tokenRes : Except Unit (List Char))
    (doRes : Except Unit Nat) (r : ProxyRequest)
    (hroot : ¬ (r.path = "/v2/".toList ∨ r.path = "/v2".toList))
    (hauth : authToken ≠ [] ∧ extractRepoFromPath registryName r.path ≠ []) :
    (∀ e, tokenRes = .error e →
      serveHTTP registryName authToken tokenRes doRes r = ⟨502, 0, 1, none⟩)
    ∧ (∀ tok e, tokenRes = .ok tok → doRes = .error e →
      (serveHTTP registryName authToken tokenRes doRes r).status = 502 ∧
      (serveHTTP registryName authToken tokenRes doRes r).upstreamCalls = 1) := by
  constructor
  · intro e he
    subst he
    unfold serveHTTP
    rw [if_neg hroot, if_pos hauth]
  · intro tok e htok hdo
    subst htok
    subst hdo
    unfold serveHTTP
    rw [if_neg hroot, if_pos hauth]
    exact ⟨rfl, rfl⟩

/-- Closed witness for `proxy_failure_502_spec`: a token-fetch failure on
`/v2/x` under namespace `ns` yields a 502 with no upstream call. -/
theorem proxy_failure_502_spec_witness :
    ¬ (("/v2/x".toList : List Char) = "/v2/".toList ∨
        ("/v2/x".toList : List Char) = "/v2".toList) ∧
    (("t".toList : List Char) ≠ [] ∧
        extractRepoFromPath "ns".toList "/v2/x".toList ≠ []) ∧
    serveHTTP "ns".toList "t".toList (Except.error ()) (Except.ok 200)
        ⟨"/v2/x".toList, 0⟩ = ⟨502, 0, 1, none⟩ :=
  ⟨by decide, by decide,
    (proxy_failure_502_spec "ns".toList "t".toList (Except.error ())
      (Except.ok 200) ⟨"/v2/x".toList, 0⟩ (by decide) (by decide)).1 () rfl⟩

/-- C3: `getDockerCreds` returns the cached secret unchanged with no
upstream fetch when a credential is cached and unexpired; otherwise it
fetches, stores the result with expiry exactly 30 minutes after the fetch
time, and returns it; a failed fetch leaves the cache unchanged and
returns the error. -/
theorem getDockerCreds_cache_spec (now : Nat)
    (fetchRes : Except Unit (List Char)) (s : ProxyCredState) :
    (s.dockerCreds ≠ [] → now < s.credsExpiry →
      getDockerCreds now fetchRes s = ⟨s, .ok s.dockerCreds, false⟩)
    ∧ (¬ (s.dockerCreds ≠ [] ∧ now < s.credsExpiry) →
      ∀ creds, fetchRes = .ok creds →
        getDockerCreds now fetchRes s = ⟨⟨creds, now + credTTL⟩, .ok creds, true⟩)
    ∧ (¬ (s.dockerCreds ≠ [] ∧ now < s.credsExpiry) →
      ∀ e, fetchRes = .error e →
        getDockerCreds now fetchRes s = ⟨s, .error e, true⟩)
    ∧ credTTL = 30 * 60 := by
  refine ⟨?_, ?_, ?_, rfl⟩
  · intro h1 h2
    unfold getDockerCreds
    rw [if_pos ⟨h1, h2⟩]
  · intro h creds hf
    subst hf
    unfold getDockerCreds
    rw [if_neg h]
  · intro h e hf
    subst hf
    unfold getDockerCreds
    rw [if_neg h]

/-- Closed witness for `getDockerCreds_cache_spec`: a cache hit at time 50
with expiry 100 returns the cached secret without fetching. -/
theorem getDockerCreds_cache_spec_witness :
    (("abc".toList : List Char) ≠ [] ∧ 50 < 100) ∧
    getDockerCreds 50 (Except.error ()) ⟨"abc".toList, 100⟩
      = ⟨⟨"abc".toList, 100⟩, .ok "abc".toList, false⟩ :=
  ⟨⟨by decide, by norm_num⟩,
    (getDockerCreds_cache_spec 50 (Except.error ()) ⟨"abc".toList, 100⟩).1
      (by decide) (by norm_num)⟩

theorem findRec_setRec (w : DNSWorld) (name content : List Char) :
    findRec (setRec w name content) name = some content := by
  induction w with
  | nil => simp [setRec, findRec]
  | cons kv w ih =>
    by_cases h : kv.1 = name
    · simp [setRec, findRec, h]
    · simp [setRec, findRec, h, ih]

/-- C4: `EnsureCNAME` strips the scheme from the target, looks the record
up by exact name, creates when none exists, updates when the content
differs, is a no-op leaving the zone unchanged when the content matches —
and hence a second identical call right after the first issues no
create/update call. -/
theorem ensureCNAME_idempotent_spec (w : DNSWorld) (subdomain target : List Char) :
    (findRec w (fullName subdomain) = none →
      ensureCNAME w subdomain target
        = ⟨.createRec (fullName subdomain) (stripScheme target),
            setRec w (fullName subdomain) (stripScheme target)⟩)
    ∧ (∀ c, findRec w (fullName subdomain) = some c → c ≠ stripScheme target →
      ensureCNAME w subdomain target
        = ⟨.updateRec (fullName subdomain) (stripScheme target),
            setRec w (fullName subdomain) (stripScheme target)⟩)
    ∧ (∀ c, findRec w (fullName subdomain) = some c → c = stripScheme target →
      ensureCNAME w subdomain target = ⟨.noCall, w⟩)
    ∧ (ensureCNAME (ensureCNAME w subdomain target).world subdomain target).call
        = .noCall := by
  refine ⟨?_, ?_, ?_, ?_⟩
  · intro h
    unfold ensureCNAME
    rw [h]
  · intro c hc hne
    unfold ensureCNAME
    rw [hc]
    simp [hne]
  · intro c hc he
    unfold ensureCNAME
    rw [hc]
    simp [he]
  · unfold ensureCNAME
    cases hfind : findRec w (fullName subdomain) with
    | none =>
      simp only
      rw [findRec_setRec]
      simp
    | some c =>
      by_cases he : c = stripScheme target
      · simp only [if_pos he]
        rw [hfind]
        simp [he]
      · simp only [if_neg he]
        rw [findRec_setRec]
        simp

/-- Closed witness for `ensureCNAME_idempotent_spec`: creating `foo` in an
empty zone issues a create call with the scheme stripped. -/
theorem ensureCNAME_idempotent_spec_witness :
    findRec [] (fullName "foo".toList) = none ∧
    ensureCNAME [] "foo".toList "https://bar.example".toList
      = ⟨.createRec (fullName "foo".toList)
            (stripScheme "https://bar.example".toList),
          setRec [] (fullName "foo".toList)
            (stripScheme "https://bar.example".toList)⟩ :=
  ⟨rfl, (ensureCNAME_idempotent_spec [] "foo".toList
      "https://bar.example".toList).1 rfl⟩

/-- C10: `EnsureCNAME` appends `".lightspeed.ee"` to its subdomain
argument only when it does not already end with that suffix, so
`EnsureCNAME "foo"` and `EnsureCNAME "foo.lightspeed.ee"` address the same
fully-qualified record name (with any target and zone state), and the
suffix is never applied twice (`fullName` is idempotent). -/
theorem ensureCNAME_zone_suffix_spec :
    (∀ s, ".lightspeed.ee".toList <:+ s → fullName s = s)
    ∧ (∀ s, ¬ (".lightspeed.ee".toList <:+ s) →
        fullName s = s ++ ".lightspeed.ee".toList)
    ∧ (∀ t w, ensureCNAME w "foo".toList t
        = ensureCNAME w "foo.lightspeed.ee".toList t)
    ∧ (∀ s, fullName (fullName s) = fullName s) := by
  have hfoo : fullName "foo".toList = fullName "foo.lightspeed.ee".toList := by
    decide
  refine ⟨?_, ?_, ?_, ?_⟩
  · intro s h
    unfold fullName
    rw [if_pos h]
  · intro s h
    unfold fullName
    rw [if_neg h]
  · intro t w
    unfold ensureCNAME
    rw [hfoo]
  · intro s
    by_cases h : ".lightspeed.ee".toList <:+ s
    · have e : fullName s = s := by
        unfold fullName
        rw [if_pos h]
      rw [e, e]
    · have e : fullName s = s ++ ".lightspeed.ee".toList := by
        unfold fullName
        rw [if_neg h]
      have h2 : ".lightspeed.ee".toList <:+ (s ++ ".lightspeed.ee".toList) :=
        List.suffix_append s _
      rw [e]
      unfold fullName
      rw [if_pos h2]

/-- Closed witness for `ensureCNAME_zone_suffix_spec`: `"foo"` does not end
with the zone suffix and gets it appended. -/
theorem ensureCNAME_zone_suffix_spec_witness :
    ¬ (".lightspeed.ee".toList <:+ "foo".toList) ∧
    fullName "foo".toList = "foo".toList ++ ".lightspeed.ee".toList :=
  ⟨by decide, ensureCNAME_zone_suffix_spec.2.1 "foo".toList (by decide)⟩

theorem waitLoop_none (responses : Nat → Except Unit (Nat × List (List Char)))
    (tag : List Char) :
    ∀ fuel attempt,
      (∀ i, attempt ≤ i → i < attempt + fuel →
        tagExists (responses i) tag ≠ .ok true) →
      waitLoop responses tag attempt fuel = (false, fuel) := by
  intro fuel
  induction fuel with
  | zero => intro attempt _; rfl
  | succ n ih =>
    intro attempt h
    have h0 : tagExists (responses attempt) tag ≠ .ok true :=
      h attempt le_rfl (by omega)
    have hrec : waitLoop responses tag (attempt + 1) n = (false, n) :=
      ih (attempt + 1) (fun i h1 h2 => h i (by omega) (by omega))
    unfold waitLoop
    rcases he : tagExists (responses attempt) tag with e | b
    · rw [hrec]
    · cases b with
      | true => exact absurd he h0
      | false => rw [hrec]

theorem waitLoop_found (responses : Nat → Except Unit (Nat × List (List Char)))
    (tag : List Char) :
    ∀ fuel attempt k, attempt ≤ k → k < attempt + fuel →
      (∀ i, attempt ≤ i → i < k → tagExists (responses i) tag ≠ .ok true) →
      tagExists (responses k) tag = .ok true →
      waitLoop responses tag attempt fuel = (true, k - attempt + 1) := by
  intro fuel
  induction fuel with
  | zero => intro attempt k h1 h2; omega
  | succ n ih =>
    intro attempt k h1 h2 hearlier hk
    rcases eq_or_lt_of_le h1 with rfl | hlt
    · unfold waitLoop
      rw [hk]
      simp
    · have h0 : tagExists (responses attempt) tag ≠ .ok true :=
        hearlier attempt le_rfl hlt
      have hrec : waitLoop responses tag (attempt + 1) n
          = (true, k - (attempt + 1) + 1) :=
        ih (attempt + 1) k (by omega) (by omega)
          (fun i hi1 hi2 => hearlier i (by omega) hi2) hk
      unfold waitLoop
      rcases he : tagExists (responses attempt) tag with e | b
      · rw [hrec]
        simp only [Prod.mk.injEq, true_and]
        omega
      · cases b with
        | true => exact absurd he h0
        | false =>
          rw [hrec]
          simp only [Prod.mk.injEq, true_and]
          omega

/-- C6: site creation requires a non-empty name (400 otherwise); image and
tag default to the site name and `"latest"`; the registry tag listing is
polled up to 5 times with a fixed 2-second delay, creation proceeds as
soon as the tag is visible (polling stops at the first visible attempt),
and when the tag is never visible in the 5 checks the handler responds
404 and never issues the application-creation call. -/
theorem createSite_spec (responses : Nat → Except Unit (Nat × List (List Char)))
    (createRes : Except Unit Nat) (site : SiteReq) :
    maxRetries = 5
    ∧ retryDelaySeconds = 2
    ∧ (site.name = [] → createSite responses createRes site = ⟨400, false, [], [], 0⟩)
    ∧ (site.image = [] → defaultedImage site = site.name)
    ∧ (site.tag = [] → defaultedTag site = "latest".toList)
    ∧ (site.name ≠ [] →
        (∀ i, 1 ≤ i → i ≤ 5 →
          tagExists (responses i) (defaultedTag site) ≠ .ok true) →
        createSite responses createRes site
          = ⟨404, false, defaultedImage site, defaultedTag site, 5⟩)
    ∧ (site.name ≠ [] → ∀ k, 1 ≤ k → k ≤ 5 →
        (∀ i, 1 ≤ i → i < k →
          tagExists (responses i) (defaultedTag site) ≠ .ok true) →
        tagExists (responses k) (defaultedTag site) = .ok true →
        (createSite responses createRes site).createCalled = true ∧
        (createSite responses createRes site).polls = k) := by
  refine ⟨rfl, rfl, ?_, ?_, ?_, ?_, ?_⟩
  · intro h
    unfold createSite
    rw [if_pos h]
  · intro h
    unfold defaultedImage
    rw [if_pos h]
  · intro h
    unfold defaultedTag
    rw [if_pos h]
  · intro hname hnone
    have hw : waitForTag responses (defaultedTag site) = (false, 5) := by
      unfold waitForTag maxRetries
      exact waitLoop_none responses (defaultedTag site) 5 1
        (fun i h1 h2 => hnone i h1 (by omega))
    unfold createSite
    rw [if_neg hname, hw]
  · intro hname k hk1 hk5 hearlier hk
    have hw : waitForTag responses (defaultedTag site) = (true, k) := by
      unfold waitForTag maxRetries
      have := waitLoop_found responses (defaultedTag site) 5 1 k hk1
        (by omega) (fun i h1 h2 => hearlier i h1 h2) hk
      rw [this]
      congr 1
      omega
    unfold createSite
    rw [if_neg hname, hw]
    cases createRes with
    | error e => exact ⟨rfl, rfl⟩
    | ok st =>
      dsimp only
      by_cases hst : st ≠ 200 ∧ st ≠ 201
      · rw [if_pos hst]
        exact ⟨rfl, rfl⟩
      · rw [if_neg hst]
        exact ⟨rfl, rfl⟩

/-- Closed witness for `createSite_spec`: with every listing returning 200
and an empty tag list, `Create("app1")` fails 404 after 5 polls without
issuing the creation call. -/
theorem createSite_spec_witness :
    (("app1".toList : List Char) ≠ []) ∧
    createSite (fun _ => Except.ok (200, [])) (Except.ok 201)
        ⟨"app1".toList, [], []⟩
      = ⟨404, false, "app1".toList, "latest".toList, 5⟩ :=
  ⟨by decide,
    by
      have h := (createSite_spec (fun _ => Except.ok (200, []))
        (Except.ok 201) ⟨"app1".toList, [], []⟩).2.2.2.2.2.1
        (by decide) (fun i _ _ => by decide)
      rw [h]
      decide⟩

/-- C9: `tagExists` reports `(false, nil)` — absent, no error — for every
tag-listing response with a non-200 status, so during site creation an
upstream listing failure is indistinguishable from a missing tag: each
such response consumes one of the 5 `waitForTag` attempts, and `Create`
can fail 404 even though every listing payload contains the tag. -/
theorem tagExists_non200_spec :
    (∀ status tags tag, status ≠ 200 →
      tagExists (.ok (status, tags)) tag = .ok false)
    ∧ ("v1".toList ∈ ["v1".toList] ∧
      createSite (fun _ => Except.ok (500, ["v1".toList])) (Except.ok 201)
          ⟨"app1".toList, [], "v1".toList⟩
        = ⟨404, false, "app1".toList, "v1".toList, 5⟩) := by
  constructor
  · intro status tags tag h
    unfold tagExists
    dsimp only
    rw [if_pos h]
  · exact ⟨by decide, by decide⟩

/-- Closed witness for `tagExists_non200_spec`: a 500 listing response is
reported as tag absent with no error. -/
theorem tagExists_non200_spec_witness :
    (500 ≠ 200) ∧ tagExists (.ok (500, [])) "x".toList = .ok false :=
  ⟨by norm_num, tagExists_non200_spec.1 500 [] "x".toList (by norm_num)⟩

theorem findAppByName_none (apps : List AppInfo) (name : List Char)
    (h : ∀ a ∈ apps, a.name ≠ name) :
    findAppByName (.ok (200, apps)) name = .ok [] := by
  unfold findAppByName
  dsimp only
  rw [if_neg (by simp)]
  rw [List.find?_eq_none.mpr (by intro a ha; simpa using h a ha)]

/-- C7: Get, Delete and Deploy resolve the site by scanning the
application listing for a matching spec name; when the listing succeeds
(status 200) but no application's name matches, each handler responds 404
and issues no further platform call. -/
theorem sites_not_found_spec (apps : List AppInfo) (name : List Char)
    (getResp delResp depResp : Except Unit Nat)
    (h : ∀ a ∈ apps, a.name ≠ name) :
    getSite (.ok (200, apps)) getResp name = ⟨404, false⟩
    ∧ deleteSite (.ok (200, apps)) delResp name = ⟨404, false⟩
    ∧ deploySite (.ok (200, apps)) depResp name = ⟨404, false⟩ := by
  have hfind := findAppByName_none apps name h
  refine ⟨?_, ?_, ?_⟩
  · unfold getSite
    rw [hfind]
    exact rfl
  · unfold deleteSite
    rw [hfind]
    exact rfl
  · unfold deploySite
    rw [hfind]
    exact rfl

/-- Closed witness for `sites_not_found_spec`: a one-app listing with a
different name yields 404 and no follow-up call on all three handlers. -/
theorem sites_not_found_spec_witness :
    (∀ a ∈ [(⟨"id1".toList, "a".toList⟩ : AppInfo)], a.name ≠ "b".toList) ∧
    getSite (.ok (200, [⟨"id1".toList, "a".toList⟩])) (Except.ok 200)
        "b".toList = ⟨404, false⟩ ∧
    deleteSite (.ok (200, [⟨"id1".toList, "a".toList⟩])) (Except.ok 200)
        "b".toList = ⟨404, false⟩ ∧
    deploySite (.ok (200, [⟨"id1".toList, "a".toList⟩])) (Except.ok 200)
        "b".toList = ⟨404, false⟩ :=
  ⟨by decide,
    (sites_not_found_spec [⟨"id1".toList, "a".toList⟩] "b".toList
      (Except.ok 200) (Except.ok 200) (Except.ok 200) (by decide)).1,
    (sites_not_found_spec [⟨"id1".toList, "a".toList⟩] "b".toList
      (Except.ok 200) (Except.ok 200) (Except.ok 200) (by decide)).2.1,
    (sites_not_found_spec [⟨"id1".toList, "a".toList⟩] "b".toList
      (Except.ok 200) (Except.ok 200) (Except.ok 200) (by decide)).2.2⟩

theorem mem_insertBy {α : Type} (le : α → α → Bool) (a x : α) :
    ∀ l : List α, x ∈ insertBy le a l ↔ x = a ∨ x ∈ l := by
  intro l
  induction l with
  | nil => simp [insertBy]
  | cons b bs ih =>
    unfold insertBy
    by_cases h : le a b = true
    · rw [if_pos h]
      exact List.mem_cons
    · rw [if_neg h]
      simp only [List.mem_cons, ih]
      tauto

theorem mem_sortBy {α : Type} (le : α → α → Bool) (x : α) :
    ∀ l : List α, x ∈ sortBy le l ↔ x ∈ l := by
  intro l
  induction l with
  | nil => simp [sortBy]
  | cons a as ih =>
    unfold sortBy
    rw [mem_insertBy]
    simp [List.mem_cons, ih]

theorem versionTags_raw_ne_latest (tags : List TagInfo) (v : SemVer)
    (h : v ∈ versionTags tags) : v.raw ≠ "latest".toList := by
  unfold versionTags at h
  rw [List.mem_filterMap] at h
  obtain ⟨t, _, hf⟩ := h
  by_cases ht : t.tag = "latest".toList
  · rw [if_pos ht] at hf
    exact absurd hf (by simp)
  · rw [if_neg ht] at hf
    cases hp : parseSemVer t.tag with
    | none =>
      rw [hp] at hf
      simp at hf
    | some v' =>
      rw [hp] at hf
      have hf2 : (⟨v'.1, v'.2.1, v'.2.2, t.tag⟩ : SemVer) = v :=
        Option.some.inj (by exact hf)
      rw [← hf2]
      exact ht

theorem otherTags_tag_ne_latest (tags : List TagInfo) (t : TagInfo)
    (h : t ∈ otherTags tags) : t.tag ≠ "latest".toList := by
  unfold otherTags at h
  rw [List.mem_filter] at h
  have h2 := h.2
  simp only [decide_eq_true_eq] at h2
  exact h2.1

/-- C5 counterexample: the frozen claim's rule "every tag not in the keep
set is deleted" — and its fallback keep set without `latest` — is false
of the program.  With tags `{v1.0.0, build-99}` the pruner's keep set
omits `build-99` yet nothing is deleted, and with tags
`{latest, build-100.., build-97}` the pruner keeps `latest` and deletes
only `build-97`. -/
theorem pruner_retention_counterexample :
    ((⟨"build-99".toList, 4⟩ : TagInfo) ∈
        [(⟨"v1.0.0".toList, 5⟩ : TagInfo), ⟨"build-99".toList, 4⟩]
      ∧ "build-99".toList ∉ keepTags keepVersions
          [⟨"v1.0.0".toList, 5⟩, ⟨"build-99".toList, 4⟩]
      ∧ tagsToDelete keepVersions
          [⟨"v1.0.0".toList, 5⟩, ⟨"build-99".toList, 4⟩] = [])
    ∧ ("latest".toList ∈ keepTags keepVersions
          [⟨"latest".toList, 9⟩, ⟨"build-100".toList, 5⟩,
            ⟨"build-99".toList, 4⟩, ⟨"build-98".toList, 3⟩,
            ⟨"build-97".toList, 2⟩]
      ∧ tagsToDelete keepVersions
          [⟨"latest".toList, 9⟩, ⟨"build-100".toList, 5⟩,
            ⟨"build-99".toList, 4⟩, ⟨"build-98".toList, 3⟩,
            ⟨"build-97".toList, 2⟩]
        = ["build-97".toList]) := by
  decide

/-- C5 (amended): the pruner keeps `latest` when present plus the top-N
semver tags by descending (major, minor, patch) and, only when no semver
tags exist, additionally the top-N non-semver tags by descending update
time (never merged with semver ranking); it deletes exactly the semver
tags beyond the top N plus — only when no semver tags exist — the
non-semver tags beyond the top N, so `latest` is never deleted and
non-semver tags are never deleted while semver tags exist; N defaults
to 3; and for `{latest, v2.0.0, v1.9.0, v1.8.0, v1.7.0}` at depth 3 the
delete set is exactly `{v1.7.0}`. -/
theorem pruner_retention_spec :
    keepVersions = 3
    ∧ keepLatest = true
    ∧ keepTags keepVersions [⟨"latest".toList, 10⟩, ⟨"v2.0.0".toList, 9⟩,
        ⟨"v1.9.0".toList, 8⟩, ⟨"v1.8.0".toList, 7⟩, ⟨"v1.7.0".toList, 6⟩]
      = ["latest".toList, "v2.0.0".toList, "v1.9.0".toList, "v1.8.0".toList]
    ∧ tagsToDelete keepVersions [⟨"latest".toList, 10⟩, ⟨"v2.0.0".toList, 9⟩,
        ⟨"v1.9.0".toList, 8⟩, ⟨"v1.8.0".toList, 7⟩, ⟨"v1.7.0".toList, 6⟩]
      = ["v1.7.0".toList]
    ∧ (∀ n tags, versionTags tags ≠ [] →
        tagsToDelete n tags
          = ((sortBy semverLess (versionTags tags)).drop n).map SemVer.raw)
    ∧ (∀ n tags, versionTags tags = [] →
        tagsToDelete n tags
          = ((sortBy afterTime (otherTags tags)).drop n).map TagInfo.tag
        ∧ (hasLatest tags = true → "latest".toList ∈ keepTags n tags))
    ∧ (∀ n tags, "latest".toList ∉ tagsToDelete n tags) := by
  refine ⟨rfl, rfl, by decide, by decide, ?_, ?_, ?_⟩
  · intro n tags h
    unfold tagsToDelete
    rw [if_neg h, List.append_nil]
  · intro n tags h
    constructor
    · unfold tagsToDelete
      rw [if_pos h, h]
      simp [sortBy]
    · intro hl
      unfold keepTags
      rw [if_pos ⟨hl, rfl⟩]
      simp
  · intro n tags hmem
    rcases List.mem_append.mp hmem with hmem | hmem
    · obtain ⟨v, hv, hraw⟩ := List.mem_map.mp hmem
      have hv2 : v ∈ versionTags tags :=
        (mem_sortBy semverLess v (versionTags tags)).mp (List.mem_of_mem_drop hv)
      exact versionTags_raw_ne_latest tags v hv2 hraw
    · by_cases h : versionTags tags = []
      · rw [if_pos h] at hmem
        obtain ⟨t, ht, hraw⟩ := List.mem_map.mp hmem
        have ht2 : t ∈ otherTags tags :=
          (mem_sortBy afterTime t (otherTags tags)).mp (List.mem_of_mem_drop ht)
        exact otherTags_tag_ne_latest tags t ht2 hraw
      · rw [if_neg h] at hmem
        exact absurd hmem (List.not_mem_nil _)

/-- Closed witness for `pruner_retention_spec`: with the single semver
tag `v1.0.0` the delete list is exactly the semver ranking beyond the
top `keepVersions`. -/
theorem pruner_retention_spec_witness :
    versionTags [⟨"v1.0.0".toList, 5⟩] ≠ [] ∧
    tagsToDelete 3 [⟨"v1.0.0".toList, 5⟩]
      = ((sortBy semverLess (versionTags [⟨"v1.0.0".toList, 5⟩])).drop 3).map
          SemVer.raw :=
  ⟨by decide,
    pruner_retention_spec.2.2.2.2.1 3 [⟨"v1.0.0".toList, 5⟩] (by decide)⟩

end Lightspeed
